import Mathlib

/-!
Shallow embedding of `src/pipeline.py`, a batch dataflow pipeline that joins
dengue case counts with rainfall measurements keyed by `UF-YEAR-MONTH`.

Modelling conventions: Python strings are `List Char` (`Str`), Python floats
are `ℚ`, the dicts built by `dict(zip(columns, element))` are association
lists with last-binding-wins lookup, and a raised Python exception is an
`Except PyError` error value.  The Beam combinators (`Map`, `FlatMap`,
`GroupByKey`, `CombinePerKey`, `CoGroupByKey`, `Filter`) are modelled as list
transformations; an exception raised while processing any record aborts the
whole run, modelled by `Except` short-circuiting.
-/

namespace Pipeline

/-- Python strings are modelled as lists of characters. -/
abbrev Str := List Char

/-- Conversion from Lean string literals to the `Str` model. -/
def str (s : String) : Str := s.toList

deriving instance DecidableEq for Except

/-- Python exceptions the pipeline code can raise. -/
inductive PyError where
  | valueError
  | keyError
  | typeError
  | indexError
deriving DecidableEq

/-- Helper for `s.split(delim)`: the first token of `s` (up to the first
occurrence of `delim`) together with the remaining tokens. -/
def splitOnF (delim : Char) : Str → Str × List Str
  | [] => ([], [])
  | c :: rest =>
    if c = delim then ([], (splitOnF delim rest).1 :: (splitOnF delim rest).2)
    else (c :: (splitOnF delim rest).1, (splitOnF delim rest).2)

/-- Model of Python `s.split(delim)` for a one-character delimiter: splits at
every occurrence and keeps empty tokens (so `"".split(d) == ['']`). -/
def splitOn (delim : Char) (s : Str) : List Str :=
  (splitOnF delim s).1 :: (splitOnF delim s).2

/-- Model of Python `sep.join(tokens)`. -/
def joinWith (sep : Str) : List Str → Str
  | [] => []
  | [t] => t
  | t :: ts => t ++ sep ++ joinWith sep ts

/-- Association-list model of a Python `dict` as built by `dict(zip(...))`
and in-place assignment. -/
abbrev Dict := List (Str × Str)

/-- Model of Python `d.get(key)`: the most recently added binding wins, and a
missing key yields `none` (Python `None`). -/
def dictGet : Dict → Str → Option Str
  | [], _ => none
  | (k, v) :: rest, key =>
    match dictGet rest key with
    | some v' => some v'
    | none => if k = key then some v else none

/-- Model of Python `d[key] = v`: appending is lookup-equivalent to in-place
update under the last-binding-wins `dictGet`. -/
def dictSet (d : Dict) (key v : Str) : Dict := d ++ [(key, v)]

/-- Column schema of the dengue dataset (`dengue_columns` in the source). -/
def dengue_columns : List Str :=
  [str "id", str "data_iniSE", str "casos", str "ibge_code", str "cidade",
   str "uf", str "cep", str "latitude", str "longitude"]

/-- Source `list_to_dictionary`: `dict(zip(columns, element))`. -/
def list_to_dictionary (element : List Str) (columns : List Str) : Dict :=
  columns.zip element

/-- Source `text_to_list`: `element.split(delimiter)`. -/
def text_to_list (element : Str) (delimiter : Char) : List Str :=
  splitOn delimiter element

/-- Source `transform_dates`: the bracket access `element['data_iniSE']`
raises `KeyError` when the field is absent; otherwise the record gains an
`ano_mes` field, the first two dash-separated components of the date joined
back with `-`. -/
def transform_dates (element : Dict) : Except PyError Dict :=
  match dictGet element (str "data_iniSE") with
  | none => .error .keyError
  | some date =>
    .ok (dictSet element (str "ano_mes")
          (joinWith ['-'] ((splitOn '-' date).take 2)))

/-- Source `uf_key`: the bracket access `element['uf']` raises `KeyError`
when the field is absent; otherwise the record is keyed by its region. -/
def uf_key (element : Dict) : Except PyError (Str × Dict) :=
  match dictGet element (str "uf") with
  | none => .error .keyError
  | some key => .ok (key, element)

/-- Model of the truthiness of `re.search(r'\d', s)`: does `s` contain a
decimal digit. -/
def containsDigit (s : Str) : Bool := s.any Char.isDigit

/-- Numeric value of a string of decimal digits. -/
def digitsVal (s : Str) : ℕ :=
  s.foldl (fun acc c => 10 * acc + (c.toNat - '0'.toNat)) 0

/-- Unsigned part of Python `float(s)` on plain decimal literals of the
shapes `ddd`, `ddd.ddd`, `.ddd` and `ddd.`. -/
def parseDecimal (s : Str) : Option ℚ :=
  match splitOn '.' s with
  | [ip] =>
    if ip ≠ [] ∧ ip.all Char.isDigit then some (digitsVal ip) else none
  | [ip, fp] =>
    if (ip ≠ [] ∨ fp ≠ []) ∧ ip.all Char.isDigit ∧ fp.all Char.isDigit then
      some ((digitsVal ip : ℚ) + (digitsVal fp : ℚ) / (10 : ℚ) ^ fp.length)
    else none
  | _ => none

/-- Model of Python `float(s)` on the plain decimal literals this dataset
carries (optional sign, digits, optional fraction part); `none` models a
raised `ValueError`.  Exponents, `inf`/`nan`, underscores and surrounding
whitespace are outside the modelled input space. -/
def pyFloat : Str → Option ℚ
  | '-' :: rest => (parseDecimal rest).map (fun q => -q)
  | '+' :: rest => parseDecimal rest
  | s => parseDecimal s

/-- Rendering of an optional value inside an f-string: Python formats `None`
as the text `"None"`. -/
def fstrOpt : Option Str → Str
  | some s => s
  | none => str "None"

/-- The composite key built by the dengue side of the source,
`f"{uf}-{d.get('ano_mes')}"`. -/
def dengue_key (uf : Str) (d : Dict) : Str :=
  uf ++ ('-' :: fstrOpt (dictGet d (str "ano_mes")))

/-- Per-record transform application with abort on exception: Beam applies
the transform to every record, and a raised exception fails the run. -/
def mapME (f : α → Except PyError β) : List α → Except PyError (List β)
  | [] => .ok []
  | x :: xs =>
    match f x with
    | .error e => .error e
    | .ok y =>
      match mapME f xs with
      | .error e => .error e
      | .ok ys => .ok (y :: ys)

/-- Source `dengue_cases`: for each record of a region group, if the `casos`
string contains a digit it goes through `float(...)` (which raises
`ValueError` on a non-numeric string), otherwise `0.0` is emitted; applying
the digit regex to a missing (`None`) `casos` value raises `TypeError`. -/
def dengue_cases (element : Str × List Dict) :
    Except PyError (List (Str × ℚ)) :=
  mapME (fun d =>
    match dictGet d (str "casos") with
    | none => .error .typeError
    | some c =>
      if containsDigit c then
        match pyFloat c with
        | some q => .ok (dengue_key element.1 d, q)
        | none => .error .valueError
      else .ok (dengue_key element.1 d, 0)) element.2

/-- The composite key built by the rain side of the source,
`f"{uf}-{'-'.join(date.split('-')[:2])}"`. -/
def rain_key (date uf : Str) : Str :=
  uf ++ ('-' :: joinWith ['-'] ((splitOn '-' date).take 2))

/-- Source `rain_key_uf_year_month`: unpacking `date, rainfall, uf = element`
raises `ValueError` unless there are exactly 3 fields; `float(rainfall)`
raises `ValueError` on a non-numeric string; a negative parsed value is
replaced by `0.0`. -/
def rain_key_uf_year_month (element : List Str) : Except PyError (Str × ℚ) :=
  match element with
  | [date, rainfall, uf] =>
    match pyFloat rainfall with
    | none => .error .valueError
    | some q =>
      if 0 ≤ q then .ok (rain_key date uf, q) else .ok (rain_key date uf, 0)
  | _ => .error .valueError

/-- Round-half-to-even on rationals, the tie rule of Python `round`. -/
def round_half_even (q : ℚ) : ℤ :=
  if q - ⌊q⌋ < 1 / 2 then ⌊q⌋
  else if 1 / 2 < q - ⌊q⌋ then ⌊q⌋ + 1
  else if ⌊q⌋ % 2 = 0 then ⌊q⌋ else ⌊q⌋ + 1

/-- Model of Python `round(x, ndigits)` on the rational model of floats. -/
def py_round (q : ℚ) (ndigits : ℕ) : ℚ :=
  (round_half_even (q * (10 : ℚ) ^ ndigits) : ℚ) / (10 : ℚ) ^ ndigits

/-- Source `round_rainfall`: rounds a summed rainfall value to 6 decimal
digits (`round(float(rainfall), ndigits=6)`; the inner `float` of a float is
the identity). -/
def round_rainfall (e : Str × ℚ) : Str × ℚ := (e.1, py_round e.2 6)

/-- Keys of a keyed collection in order of first occurrence, without
duplicates. -/
def dedupKeys : List Str → List Str
  | [] => []
  | k :: rest => k :: (dedupKeys rest).filter (fun k' => k' ≠ k)

/-- All values a keyed collection holds for key `k`, in collection order. -/
def valuesFor (k : Str) (l : List (Str × α)) : List α :=
  (l.filter (fun p => p.1 = k)).map Prod.snd

/-- Model of Beam `GroupByKey`: one entry per distinct key, carrying every
value of that key. -/
def groupByKey (l : List (Str × α)) : List (Str × List α) :=
  (dedupKeys (l.map Prod.fst)).map (fun k => (k, valuesFor k l))

/-- Model of Beam `CombinePerKey(sum)`: one entry per distinct key, carrying
the arithmetic total of that key's values. -/
def combinePerKey (l : List (Str × ℚ)) : List (Str × ℚ) :=
  (dedupKeys (l.map Prod.fst)).map (fun k => (k, (valuesFor k l).sum))

/-- The per-key structure produced by `CoGroupByKey` on
`{'rain': rain, 'dengue': dengue}`. -/
structure GroupedData where
  rain : List ℚ
  dengue : List ℚ
deriving DecidableEq

/-- Model of Beam `CoGroupByKey`: one entry per key of the union of the two
streams' key sets, carrying the (possibly empty) value lists each stream
holds for that key. -/
def coGroupByKey (r d : List (Str × ℚ)) : List (Str × GroupedData) :=
  (dedupKeys (r.map Prod.fst ++ d.map Prod.fst)).map
    (fun k => (k, ⟨valuesFor k r, valuesFor k d⟩))

/-- Source `filter_missing_values`: `all([data['rain'], data['dengue']])` is
the truthiness (non-emptiness) of both value lists. -/
def filter_missing_values (e : Str × GroupedData) : Bool :=
  !e.2.rain.isEmpty && !e.2.dengue.isEmpty

/-- A formatted output row, the ordered tuple
`(uf, year, month, rainfall, dengue cases)`.  The two measures stay in the
rational model of floats: the source's final `str(...)` rendering is pure
formatting and is not modelled. -/
structure OutputRow where
  uf : Str
  year : Str
  month : Str
  rainfall : ℚ
  cases : ℚ
deriving DecidableEq

/-- Source `unpack_elements`: `uf, year, month = key.split('-')` raises
`ValueError` unless the key splits into exactly 3 tokens, and `[0]` on an
empty value list raises `IndexError`. -/
def unpack_elements (e : Str × GroupedData) : Except PyError OutputRow :=
  match splitOn '-' e.1 with
  | [uf, year, month] =>
    match e.2.rain, e.2.dengue with
    | r :: _, d :: _ => .ok ⟨uf, year, month, r, d⟩
    | _, _ => .error .indexError
  | _ => .error .valueError

/-- Source `prepare_csv`. -/
def prepare_csv (element : List Str) (delimiter : Char) : Str :=
  joinWith [delimiter] element

/-- The dengue-side per-record stages before grouping (the Beam `Map` stages
of the `dengue` collection): list-to-dictionary, date transform, UF key. -/
def dengue_record_stage (fields : List Str) : Except PyError (Str × Dict) :=
  match transform_dates (list_to_dictionary fields dengue_columns) with
  | .error e => .error e
  | .ok d => uf_key d

/-- The `dengue` collection of the source: parse, key by UF, group by UF,
emit `(UF-YEAR-MONTH, cases)` pairs, sum per key. -/
def dengue (lines : List Str) : Except PyError (List (Str × ℚ)) :=
  match mapME dengue_record_stage
      (lines.map (fun line => text_to_list line '|')) with
  | .error e => .error e
  | .ok keyed =>
    match mapME dengue_cases (groupByKey keyed) with
    | .error e => .error e
    | .ok emitted => .ok (combinePerKey emitted.flatten)

/-- The `rain` collection of the source: parse, key by `UF-YEAR-MONTH`, sum
per key, round each sum. -/
def rain (lines : List Str) : Except PyError (List (Str × ℚ)) :=
  match mapME rain_key_uf_year_month
      (lines.map (fun line => text_to_list line ',')) with
  | .error e => .error e
  | .ok keyed => .ok ((combinePerKey keyed).map round_rainfall)

/-- The `rain_dengue` collection of the source, taken from the two
aggregated per-source streams: co-group, completeness filter, row
unpacking. -/
def rain_dengue (rainAgg dengueAgg : List (Str × ℚ)) :
    Except PyError (List OutputRow) :=
  mapME unpack_elements
    ((coGroupByKey rainAgg dengueAgg).filter filter_missing_values)

/-- Reassembles the composite key a formatted row came from. -/
def rowKey (row : OutputRow) : Str :=
  row.uf ++ ('-' :: (row.year ++ ('-' :: row.month)))

/-! Lemmas about the string model. -/

theorem splitOn_ne_nil (d : Char) (s : Str) : splitOn d s ≠ [] := by
  simp [splitOn]

theorem splitOn_cons_self (d : Char) (s : Str) :
    splitOn d (d :: s) = [] :: splitOn d s := by
  simp [splitOn, splitOnF]

theorem splitOn_cons_of_ne (d c : Char) (s : Str) (h : c ≠ d) (t : Str)
    (ts : List Str) (hs : splitOn d s = t :: ts) :
    splitOn d (c :: s) = (c :: t) :: ts := by
  simp only [splitOn, List.cons.injEq] at hs
  simp [splitOn, splitOnF, h, hs.1, hs.2]

theorem splitOn_dest (d : Char) (s : Str) :
    ∃ t ts, splitOn d s = t :: ts := by
  cases h : splitOn d s with
  | nil => exact absurd h (splitOn_ne_nil d s)
  | cons t ts => exact ⟨t, ts, rfl⟩

theorem joinWith_cons (sep : Str) (t : Str) (ts : List Str) (h : ts ≠ []) :
    joinWith sep (t :: ts) = t ++ sep ++ joinWith sep ts := by
  cases ts with
  | nil => exact absurd rfl h
  | cons t' ts' => rfl

theorem join_splitOn (d : Char) (s : Str) :
    joinWith [d] (splitOn d s) = s := by
  induction s with
  | nil => rfl
  | cons c s ih =>
    by_cases hc : c = d
    · subst hc
      rw [splitOn_cons_self, joinWith_cons _ _ _ (splitOn_ne_nil c s), ih]
      rfl
    · obtain ⟨t, ts, hs⟩ := splitOn_dest d s
      rw [splitOn_cons_of_ne d c s hc t ts hs]
      rw [hs] at ih
      cases ts with
      | nil =>
        simp only [joinWith] at ih ⊢
        rw [ih]
      | cons t2 ts2 =>
        rw [joinWith_cons _ _ _ (by simp)] at ih ⊢
        rw [List.cons_append, List.cons_append, ih]

theorem splitOn_append_of_not_mem (d : Char) (xs ys : Str) (h : d ∉ xs) :
    splitOn d (xs ++ d :: ys) = xs :: splitOn d ys := by
  induction xs with
  | nil => simpa using splitOn_cons_self d ys
  | cons c xs ih =>
    simp only [List.mem_cons, not_or] at h
    rw [List.cons_append]
    exact splitOn_cons_of_ne d c _ (fun e => h.1 e.symm) xs _ (ih h.2)

theorem splitOn_eq_self_of_not_mem (d : Char) (xs : Str) (h : d ∉ xs) :
    splitOn d xs = [xs] := by
  induction xs with
  | nil => rfl
  | cons c xs ih =>
    simp only [List.mem_cons, not_or] at h
    exact splitOn_cons_of_ne d c xs (fun e => h.1 e.symm) xs [] (ih h.2)

theorem not_mem_of_mem_splitOn (d : Char) (s : Str) (t : Str)
    (ht : t ∈ splitOn d s) : d ∉ t := by
  induction s generalizing t with
  | nil =>
    have h0 : t = [] := by simpa [splitOn, splitOnF] using ht
    subst h0
    simp
  | cons c s ih =>
    by_cases hc : c = d
    · subst hc
      rw [splitOn_cons_self] at ht
      rcases List.mem_cons.mp ht with rfl | h1
      · simp
      · exact ih t h1
    · obtain ⟨t0, ts, hs⟩ := splitOn_dest d s
      rw [splitOn_cons_of_ne d c s hc t0 ts hs] at ht
      rcases List.mem_cons.mp ht with rfl | h1
      · have h2 : d ∉ t0 := ih t0 (by rw [hs]; exact List.mem_cons_self _ _)
        simp only [List.mem_cons, not_or]
        exact ⟨fun e => hc e.symm, h2⟩
      · exact ih t (by rw [hs]; exact List.mem_cons_of_mem _ h1)

/-! Lemmas about the run model and the grouping combinators. -/

theorem mapME_ok_mem {f : α → Except PyError β} {l : List α} {out : List β}
    (h : mapME f l = .ok out) {x : α} (hx : x ∈ l) : ∃ y, f x = .ok y := by
  induction l generalizing out with
  | nil => cases hx
  | cons a l ih =>
    rw [mapME] at h
    cases hfa : f a with
    | error e => rw [hfa] at h; cases h
    | ok y =>
      rw [hfa] at h
      cases hml : mapME f l with
      | error e => rw [hml] at h; cases h
      | ok ys =>
        rcases List.mem_cons.mp hx with rfl | hx'
        · exact ⟨y, hfa⟩
        · exact ih hml hx'

theorem mapME_map_proj {f : α → Except PyError β} (g : β → Str)
    (proj : α → Str) (hf : ∀ x y, f x = .ok y → g y = proj x) :
    ∀ {l : List α} {out : List β}, mapME f l = .ok out →
      out.map g = l.map proj := by
  intro l
  induction l with
  | nil =>
    intro out h
    rw [mapME] at h
    cases h
    rfl
  | cons a l ih =>
    intro out h
    rw [mapME] at h
    cases hfa : f a with
    | error e => rw [hfa] at h; cases h
    | ok y =>
      rw [hfa] at h
      cases hml : mapME f l with
      | error e => rw [hml] at h; cases h
      | ok ys =>
        rw [hml] at h
        cases h
        simp only [List.map_cons, hf a y hfa, ih hml]

theorem mem_dedupKeys {a : Str} : ∀ {l : List Str}, a ∈ dedupKeys l ↔ a ∈ l := by
  intro l
  induction l with
  | nil => simp [dedupKeys]
  | cons k rest ih =>
    simp only [dedupKeys, List.mem_cons, List.mem_filter, ih,
      decide_eq_true_eq]
    by_cases hak : a = k
    · simp [hak]
    · simp [hak]

theorem nodup_dedupKeys : ∀ l : List Str, (dedupKeys l).Nodup := by
  intro l
  induction l with
  | nil => simp [dedupKeys]
  | cons k rest ih =>
    rw [dedupKeys, List.nodup_cons]
    constructor
    · simp [List.mem_filter]
    · exact ih.filter _

theorem valuesFor_ne_nil_iff {k : Str} {l : List (Str × α)} :
    valuesFor k l ≠ [] ↔ k ∈ l.map Prod.fst := by
  induction l with
  | nil => simp [valuesFor]
  | cons p rest ih =>
    by_cases hp : p.1 = k
    · have h1 : valuesFor k (p :: rest) = p.2 :: valuesFor k rest := by
        simp [valuesFor, List.filter_cons, hp]
      rw [h1, List.map_cons]
      constructor
      · intro _
        exact List.mem_cons.mpr (Or.inl hp.symm)
      · intro _
        exact List.cons_ne_nil _ _
    · simp only [valuesFor, List.filter_cons, decide_eq_true_eq, hp,
        if_false, List.map_cons, List.mem_cons] at ih ⊢
      rw [ih]
      constructor
      · exact Or.inr
      · rintro (h | h)
        · exact absurd h.symm hp
        · exact h

theorem dictGet_eq_none_iff {d : Dict} {key : Str} :
    dictGet d key = none ↔ key ∉ d.map Prod.fst := by
  induction d with
  | nil => simp [dictGet]
  | cons p rest ih =>
    obtain ⟨k, v⟩ := p
    cases h : dictGet rest key with
    | some v' =>
      have hk : key ∈ rest.map Prod.fst := by
        by_contra hcon
        rw [ih.mpr hcon] at h
        cases h
      simp [dictGet, h, hk]
    | none =>
      have hk : key ∉ rest.map Prod.fst := ih.mp h
      by_cases hkk : k = key
      · simp [dictGet, h, hkk]
      · have hkk' : ¬key = k := fun e => hkk e.symm
        simp [dictGet, h, hkk, hkk', hk]

theorem dictGet_mem_values {d : Dict} {key v : Str}
    (h : dictGet d key = some v) : v ∈ d.map Prod.snd := by
  induction d generalizing v with
  | nil => cases h
  | cons p rest ih =>
    obtain ⟨k, w⟩ := p
    cases hr : dictGet rest key with
    | some v' =>
      rw [dictGet, hr] at h
      cases h
      exact List.mem_cons_of_mem _ (ih hr)
    | none =>
      rw [dictGet, hr] at h
      by_cases hkk : k = key
      · rw [if_pos hkk] at h
        cases h
        exact List.mem_cons_self _ _
      · rw [if_neg hkk] at h
        cases h

theorem map_fst_zip_take (columns element : List Str) :
    (columns.zip element).map Prod.fst = columns.take element.length := by
  induction columns generalizing element with
  | nil => simp
  | cons c cs ih =>
    cases element with
    | nil => simp
    | cons e es => simp [List.zip_cons_cons, ih]

theorem map_snd_zip_take (columns element : List Str) :
    (columns.zip element).map Prod.snd = element.take columns.length := by
  induction columns generalizing element with
  | nil => simp
  | cons c cs ih =>
    cases element with
    | nil => simp
    | cons e es => simp [List.zip_cons_cons, ih]

theorem length_filter_of_nodup_map {g : β → Str} {k : Str} :
    ∀ {rows : List β}, (rows.map g).Nodup → k ∈ rows.map g →
      (rows.filter (fun x => g x = k)).length = 1 := by
  intro rows
  induction rows with
  | nil => intro _ hk; cases hk
  | cons r rows ih =>
    intro hnd hk
    rw [List.map_cons, List.nodup_cons] at hnd
    by_cases hgr : g r = k
    · have hnil : rows.filter (fun x => g x = k) = [] := by
        rw [List.filter_eq_nil_iff]
        intro x hx
        simp only [decide_eq_true_eq]
        intro e
        exact hnd.1 (by rw [hgr, ← e]; exact List.mem_map_of_mem g hx)
      simp [List.filter_cons, hgr, hnil]
    · have hk' : k ∈ rows.map g := by
        rcases List.mem_cons.mp hk with h | h
        · exact absurd h.symm hgr
        · exact h
      simp only [List.filter_cons, decide_eq_true_eq, hgr, if_false]
      exact ih hnd.2 hk'

theorem unpack_elements_rowKey {e : Str × GroupedData} {row : OutputRow}
    (h : unpack_elements e = .ok row) : rowKey row = e.1 := by
  have hjoin := join_splitOn '-' e.1
  unfold unpack_elements at h
  rcases hs : splitOn '-' e.1 with _ | ⟨u, _ | ⟨y, _ | ⟨m, _ | ⟨x, ts⟩⟩⟩⟩ <;>
    rw [hs] at h <;> try cases h
  cases hr : e.2.rain with
  | nil => rw [hr] at h; cases hd : e.2.dengue <;> rw [hd] at h <;> cases h
  | cons rv rrest =>
    rw [hr] at h
    cases hd : e.2.dengue with
    | nil => rw [hd] at h; cases h
    | cons dv drest =>
      rw [hd] at h
      cases h
      rw [hs] at hjoin
      simp only [joinWith] at hjoin
      rw [rowKey]
      rw [← hjoin]
      simp

theorem mem_keys_joined {r d : List (Str × ℚ)} {k : Str} :
    k ∈ ((coGroupByKey r d).filter filter_missing_values).map Prod.fst ↔
      valuesFor k r ≠ [] ∧ valuesFor k d ≠ [] := by
  constructor
  · intro hmem
    obtain ⟨p, hp, hpk⟩ := List.mem_map.mp hmem
    obtain ⟨hpc, hfmv⟩ := List.mem_filter.mp hp
    obtain ⟨k', hk', hpk'⟩ := List.mem_map.mp hpc
    have hk'' : k' = k := by rw [← hpk, ← hpk']
    subst hk''
    rw [← hpk'] at hfmv
    refine ⟨fun e => ?_, fun e => ?_⟩ <;> simp [filter_missing_values, e] at hfmv
  · rintro ⟨h1, h2⟩
    have hk : k ∈ dedupKeys (r.map Prod.fst ++ d.map Prod.fst) :=
      mem_dedupKeys.mpr (List.mem_append.mpr
        (Or.inl (valuesFor_ne_nil_iff.mp h1)))
    have hpc : (k, (⟨valuesFor k r, valuesFor k d⟩ : GroupedData)) ∈
        coGroupByKey r d := by
      rw [coGroupByKey]
      exact List.mem_map.mpr ⟨k, hk, rfl⟩
    have hfmv : filter_missing_values
        (k, (⟨valuesFor k r, valuesFor k d⟩ : GroupedData)) = true := by
      simp [filter_missing_values, h1, h2]
    exact List.mem_map.mpr
      ⟨_, List.mem_filter.mpr ⟨hpc, hfmv⟩, rfl⟩

theorem nodup_keys_joined {r d : List (Str × ℚ)} :
    ((((coGroupByKey r d).filter filter_missing_values).map Prod.fst)).Nodup := by
  have h1 : ((coGroupByKey r d).map Prod.fst).Nodup := by
    have : (coGroupByKey r d).map Prod.fst =
        dedupKeys (r.map Prod.fst ++ d.map Prod.fst) := by
      rw [coGroupByKey, List.map_map]
      have hcomp : (Prod.fst ∘ fun k : Str =>
          (k, (⟨valuesFor k r, valuesFor k d⟩ : GroupedData))) = id := rfl
      rw [hcomp, List.map_id]
    rw [this]
    exact nodup_dedupKeys _
  exact h1.sublist (List.Sublist.map Prod.fst (List.filter_sublist _))

/-! Claim theorems. -/

/-- C3: after the co-grouping join and completeness filter, a composite key
for which only one of the two sources (rain, dengue) contributed any value
never appears in the final output, and a key for which both sources
contributed appears in exactly one output row. -/
theorem joined_inner_join_semantics (r d : List (Str × ℚ))
    (rows : List OutputRow) (hok : rain_dengue r d = .ok rows) (k : Str) :
    ((valuesFor k r = [] ∨ valuesFor k d = []) →
      ∀ row ∈ rows, rowKey row ≠ k) ∧
    (valuesFor k r ≠ [] → valuesFor k d ≠ [] →
      (rows.filter (fun row => rowKey row = k)).length = 1) := by
  rw [rain_dengue] at hok
  have hmap : rows.map rowKey =
      ((coGroupByKey r d).filter filter_missing_values).map Prod.fst :=
    mapME_map_proj rowKey Prod.fst (fun e row h => unpack_elements_rowKey h) hok
  constructor
  · intro hempty row hrow e
    have hk : k ∈ rows.map rowKey := by
      rw [← e]
      exact List.mem_map_of_mem rowKey hrow
    rw [hmap, mem_keys_joined] at hk
    rcases hempty with h | h
    · exact hk.1 h
    · exact hk.2 h
  · intro h1 h2
    have hk : k ∈ rows.map rowKey := by
      rw [hmap]
      exact mem_keys_joined.mpr ⟨h1, h2⟩
    have hnd : (rows.map rowKey).Nodup := by
      rw [hmap]
      exact nodup_keys_joined
    exact length_filter_of_nodup_map hnd hk

/-- Witness for C3: on concrete aggregated streams, the key `RJ-2015-04`
(present only in the dengue stream) yields no output row, while `SP-2015-03`
(present in both) yields exactly one. -/
theorem joined_inner_join_semantics_witness :
    rain_dengue [(str "SP-2015-03", 10)]
        [(str "SP-2015-03", 7), (str "RJ-2015-04", 5)] =
      .ok [⟨str "SP", str "2015", str "03", 10, 7⟩] ∧
    rowKey ⟨str "SP", str "2015", str "03", 10, 7⟩ ≠ str "RJ-2015-04" ∧
    ([(⟨str "SP", str "2015", str "03", 10, 7⟩ : OutputRow)].filter
        (fun row => rowKey row = str "SP-2015-03")).length = 1 := by
  have h1 : rain_dengue [(str "SP-2015-03", 10)]
      [(str "SP-2015-03", 7), (str "RJ-2015-04", 5)] =
      .ok [⟨str "SP", str "2015", str "03", 10, 7⟩] := by decide
  refine ⟨h1, ?_, ?_⟩
  · exact (joined_inner_join_semantics _ _ _ h1 (str "RJ-2015-04")).1
      (by decide) _ (List.mem_cons_self _ _)
  · exact (joined_inner_join_semantics _ _ _ h1 (str "SP-2015-03")).2
      (by decide) (by decide)

/-- C4: for every valid record of either source whose region contains no `-`,
splitting the derived composite key on `-` yields back exactly the three
tokens (region, year, month) that went into it. -/
theorem composite_key_round_trip (uf date t1 t2 : Str) (rest : List Str)
    (d : Dict) (huf : ('-' : Char) ∉ uf)
    (hdate : splitOn '-' date = t1 :: t2 :: rest)
    (hd : dictGet d (str "ano_mes") =
      some (joinWith ['-'] ((splitOn '-' date).take 2))) :
    splitOn '-' (rain_key date uf) = [uf, t1, t2] ∧
    splitOn '-' (dengue_key uf d) = [uf, t1, t2] := by
  have ht1 : ('-' : Char) ∉ t1 :=
    not_mem_of_mem_splitOn '-' date t1
      (by rw [hdate]; exact List.mem_cons_self _ _)
  have ht2 : ('-' : Char) ∉ t2 :=
    not_mem_of_mem_splitOn '-' date t2
      (by rw [hdate]; exact List.mem_cons_of_mem _ (List.mem_cons_self _ _))
  have htake : (splitOn '-' date).take 2 = [t1, t2] := by
    rw [hdate]
    rfl
  have hjoin : joinWith ['-'] [t1, t2] = t1 ++ ('-' :: t2) := by
    rw [joinWith_cons _ _ _ (by simp)]
    simp [joinWith]
  have hsplit :
      splitOn '-' (uf ++ ('-' :: (t1 ++ ('-' :: t2)))) = [uf, t1, t2] := by
    rw [splitOn_append_of_not_mem '-' uf _ huf,
      splitOn_append_of_not_mem '-' t1 _ ht1,
      splitOn_eq_self_of_not_mem '-' t2 ht2]
  constructor
  · rw [rain_key, htake, hjoin]
    exact hsplit
  · rw [dengue_key, hd]
    simp only [fstrOpt, htake, hjoin]
    exact hsplit

/-- Witness for C4 at the record `(date "2015-03-10", region "SP")`. -/
theorem composite_key_round_trip_witness :
    splitOn '-' (rain_key (str "2015-03-10") (str "SP")) =
      [str "SP", str "2015", str "03"] ∧
    splitOn '-' (dengue_key (str "SP") [(str "ano_mes", str "2015-03")]) =
      [str "SP", str "2015", str "03"] :=
  composite_key_round_trip (str "SP") (str "2015-03-10") (str "2015")
    (str "03") [str "10"] [(str "ano_mes", str "2015-03")]
    (by decide) (by decide) (by decide)

unseal Rat.add Rat.mul Rat.inv Rat.sub Rat.ofScientific in
/-- C5: on the rain side the per-key sum is rounded to 6 decimal digits after
summation; in particular a rain sum of `12.3456789` rounds to `12.345679`. -/
theorem rain_sum_rounded_after_summation :
    (∀ keyed : List (Str × ℚ),
      (combinePerKey keyed).map round_rainfall =
        (dedupKeys (keyed.map Prod.fst)).map
          (fun k => (k, py_round ((valuesFor k keyed).sum) 6))) ∧
    py_round (12.3456789 : ℚ) 6 = (12.345679 : ℚ) := by
  constructor
  · intro keyed
    rw [combinePerKey, List.map_map]
    rfl
  · decide

/-- C6: a rain-side record whose rainfall parses to a negative value
contributes `0.0`, not the negative value. -/
theorem rain_negative_clamped (date rf uf : Str) (q : ℚ)
    (hp : pyFloat rf = some q) (hneg : q < 0) :
    rain_key_uf_year_month [date, rf, uf] = .ok (rain_key date uf, 0) := by
  simp [rain_key_uf_year_month, hp, not_le.mpr hneg]

unseal Rat.add Rat.mul Rat.inv Rat.sub Rat.ofScientific in
/-- Witness for C6 on the spec's example line `2015-04-01,-3.0,SP`. -/
theorem rain_negative_clamped_witness :
    text_to_list (str "2015-04-01,-3.0,SP") ',' =
      [str "2015-04-01", str "-3.0", str "SP"] ∧
    rain_key_uf_year_month [str "2015-04-01", str "-3.0", str "SP"] =
      .ok (rain_key (str "2015-04-01") (str "SP"), 0) ∧
    rain_key (str "2015-04-01") (str "SP") = str "SP-2015-04" :=
  ⟨by decide,
   rain_negative_clamped (str "2015-04-01") (str "-3.0") (str "SP") (-3)
     (by decide) (by decide),
   by decide⟩

/-- C7: a dengue-side record whose `casos` string contains no digit at all is
not dropped: a `(key, 0.0)` pair is emitted for its composite key. -/
theorem dengue_no_digit_yields_zero (uf : Str) (d : Dict) (c : Str)
    (hc : dictGet d (str "casos") = some c)
    (hdig : containsDigit c = false) :
    dengue_cases (uf, [d]) = .ok [(dengue_key uf d, 0)] := by
  simp [dengue_cases, mapME, hc, hdig]

/-- Witness for C7 on a record with `casos = "abc"`. -/
theorem dengue_no_digit_yields_zero_witness :
    dengue_cases (str "SP",
        [[(str "casos", str "abc"), (str "ano_mes", str "2015-03")]]) =
      .ok [(dengue_key (str "SP")
        [(str "casos", str "abc"), (str "ano_mes", str "2015-03")], 0)] ∧
    dengue_key (str "SP")
        [(str "casos", str "abc"), (str "ano_mes", str "2015-03")] =
      str "SP-2015-03" :=
  ⟨dengue_no_digit_yields_zero (str "SP") _ (str "abc") (by decide) (by decide),
   by decide⟩

/-- C1 counterexample: for `casos = "12a"` (contains a digit but is not
fully numeric) the aggregation raises `ValueError` from the `float` cast; it
does not emit the `(key, 0.0)` pair the claim asserts. -/
theorem dengue_digit_nonnumeric_cex :
    dengue_cases (str "SP",
        [[(str "casos", str "12a"), (str "ano_mes", str "2015-03")]]) =
      .error .valueError ∧
    (Except.error PyError.valueError :
        Except PyError (List (Str × ℚ))) ≠ .ok [(str "SP-2015-03", 0)] := by
  decide

/-- C1 amended: for every dengue-side record whose `casos` string contains a
digit but does not parse as a float, the aggregation raises `ValueError`
(aborting the run) instead of emitting a pair. -/
theorem dengue_digit_nonnumeric_raises (uf c : Str) (d : Dict)
    (rest : List Dict)
    (hc : dictGet d (str "casos") = some c)
    (hdig : containsDigit c = true)
    (hparse : pyFloat c = none) :
    dengue_cases (uf, d :: rest) = .error .valueError := by
  simp [dengue_cases, mapME, hc, hdig, hparse]

/-- Witness for the amended C1 on a record with `casos = "4x5"`. -/
theorem dengue_digit_nonnumeric_raises_witness :
    dengue_cases (str "RJ",
        [[(str "casos", str "4x5"), (str "ano_mes", str "2015-05")]]) =
      .error .valueError :=
  dengue_digit_nonnumeric_raises (str "RJ") (str "4x5") _ []
    (by decide) (by decide) (by decide)

/-- C2 counterexample: a dengue-side `casos = "-5"` is negative, parses, and
is passed through un-clamped: the record contributes `-5.0`, not the `0.0`
the claimed invariant requires for negative measures. -/
theorem measure_zero_invariant_cex :
    dengue_cases (str "SP",
        [[(str "casos", str "-5"), (str "ano_mes", str "2015-03")]]) =
      .ok [(str "SP-2015-03", -5)] ∧
    (-5 : ℚ) < 0 ∧ (-5 : ℚ) ≠ 0 := by
  decide

/-- C2 amended: the zero-coercion invariant holds exactly for the checked
cases — a dengue-side measure with no digit becomes `0.0`, and a rain-side
parsed negative becomes `0.0` — while a digit-containing unparsable
dengue-side measure and an unparsable rain-side measure raise `ValueError`
(and a negative dengue-side measure is not clamped, see the
counterexample). -/
theorem measure_zero_fallback (uf date u c rf : Str) (d : Dict) :
    (dictGet d (str "casos") = some c → containsDigit c = false →
      dengue_cases (uf, [d]) = .ok [(dengue_key uf d, 0)]) ∧
    (dictGet d (str "casos") = some c → containsDigit c = true →
      pyFloat c = none → dengue_cases (uf, [d]) = .error .valueError) ∧
    (∀ q : ℚ, pyFloat rf = some q → q < 0 →
      rain_key_uf_year_month [date, rf, u] = .ok (rain_key date u, 0)) ∧
    (pyFloat rf = none →
      rain_key_uf_year_month [date, rf, u] = .error .valueError) := by
  refine ⟨fun hc hdig => ?_, fun hc hdig hp => ?_,
    fun q hp hneg => ?_, fun hp => ?_⟩
  · simp [dengue_cases, mapME, hc, hdig]
  · simp [dengue_cases, mapME, hc, hdig, hp]
  · simp [rain_key_uf_year_month, hp, not_le.mpr hneg]
  · simp [rain_key_uf_year_month, hp]

unseal Rat.add Rat.mul Rat.inv Rat.sub Rat.ofScientific in
/-- Witness for the amended C2: a digit-free dengue measure and a negative
rain measure both turn into a zero contribution. -/
theorem measure_zero_fallback_witness :
    dengue_cases (str "SP",
        [[(str "casos", str "xyz"), (str "ano_mes", str "2015-03")]]) =
      .ok [(dengue_key (str "SP")
        [(str "casos", str "xyz"), (str "ano_mes", str "2015-03")], 0)] ∧
    rain_key_uf_year_month [str "2015-04-02", str "-7.5", str "RJ"] =
      .ok (rain_key (str "2015-04-02") (str "RJ"), 0) :=
  ⟨(measure_zero_fallback (str "SP") (str "x") (str "x") (str "xyz")
      (str "x") [(str "casos", str "xyz"), (str "ano_mes", str "2015-03")]).1
    (by decide) (by decide),
   (measure_zero_fallback (str "SP") (str "2015-04-02") (str "RJ") (str "x")
      (str "-7.5") []).2.2.1 (-15 / 2) (by decide) (by decide)⟩

/-- C8: zipping a field sequence against a schema of a different length
raises no error — schema names beyond the field count are unset in the
mapping, and fields beyond the schema length never appear as values. -/
theorem schema_zip_loose (element columns : List Str) (name : Str) :
    (name ∈ columns.drop element.length →
      name ∉ columns.take element.length →
      dictGet (list_to_dictionary element columns) name = none) ∧
    (∀ v, dictGet (list_to_dictionary element columns) name = some v →
      v ∈ element.take columns.length) := by
  constructor
  · intro _ hnotin
    rw [dictGet_eq_none_iff, list_to_dictionary, map_fst_zip_take]
    exact hnotin
  · intro v hv
    have h2 := dictGet_mem_values hv
    rw [list_to_dictionary, map_snd_zip_take] at h2
    exact h2

/-- Witness for C8: a 2-field dengue line leaves `casos` unset, and the one
value the mapping can produce for `id` comes from the kept fields. -/
theorem schema_zip_loose_witness :
    dictGet (list_to_dictionary [str "1", str "2015-03-10"] dengue_columns)
      (str "casos") = none ∧
    str "1" ∈ ([str "1", str "2015-03-10"] : List Str).take
      dengue_columns.length :=
  ⟨(schema_zip_loose [str "1", str "2015-03-10"] dengue_columns
      (str "casos")).1 (by decide) (by decide),
   (schema_zip_loose [str "1", str "2015-03-10"] dengue_columns
      (str "id")).2 (str "1") (by decide)⟩

/-- C9: a rain-side line whose split on `,` yields other than exactly 3
fields makes the tuple unpacking raise `ValueError`, and the whole run
aborts rather than skipping or zero-filling the record. -/
theorem rain_bad_arity_raises (line : Str)
    (h : (text_to_list line ',').length ≠ 3) :
    rain_key_uf_year_month (text_to_list line ',') = .error .valueError ∧
    ∀ lines out, line ∈ lines → rain lines ≠ .ok out := by
  have h1 : rain_key_uf_year_month (text_to_list line ',') =
      .error .valueError := by
    rcases hl : text_to_list line ',' with _ | ⟨a, _ | ⟨b, _ | ⟨c, _ | ⟨e, rest⟩⟩⟩⟩
    · rfl
    · rfl
    · rfl
    · rw [hl] at h
      simp at h
    · rfl
  refine ⟨h1, fun lines out hmem hok => ?_⟩
  rw [rain] at hok
  cases hk : mapME rain_key_uf_year_month
      (lines.map fun l2 => text_to_list l2 ',') with
  | error e => rw [hk] at hok; cases hok
  | ok keyed =>
    obtain ⟨y, hy⟩ := mapME_ok_mem hk
      (List.mem_map_of_mem (fun l2 => text_to_list l2 ',') hmem)
    rw [h1] at hy
    cases hy

/-- Witness for C9 on the 2-field line `2015-04-01,5.0`. -/
theorem rain_bad_arity_raises_witness :
    rain_key_uf_year_month (text_to_list (str "2015-04-01,5.0") ',') =
      .error .valueError ∧
    rain [str "2015-04-01,5.0"] ≠ .ok [] := by
  have h := rain_bad_arity_raises (str "2015-04-01,5.0") (by decide)
  exact ⟨h.1, h.2 [str "2015-04-01,5.0"] [] (by decide)⟩

/-- C10 counterexample: on the short line `1|2015-03-10` (where `casos` is
unset) the run does abort, but with a `KeyError` raised by the key-derivation
stages before the dengue aggregation ever runs — not with the `TypeError`
the digit regex would raise inside `dengue_cases`. -/
theorem dengue_short_record_cex :
    dengue_record_stage (text_to_list (str "1|2015-03-10") '|') =
      .error .keyError ∧
    PyError.keyError ≠ PyError.typeError := by
  decide

/-- C10 amended: a dengue line with at most 5 fields (which covers every
line whose `casos` field is unset) makes the pre-aggregation stages raise
`KeyError` from bracket access of `data_iniSE` or `uf`; `dengue_cases`
applied directly to a mapping lacking `casos` would raise `TypeError`; the
parser itself (`list_to_dictionary`) tolerates the short record. -/
theorem dengue_short_record_errors (line : Str) (uf : Str) (d : Dict)
    (rest : List Dict)
    (hlen : (text_to_list line '|').length ≤ 5)
    (hcasos : dictGet d (str "casos") = none) :
    dengue_record_stage (text_to_list line '|') = .error .keyError ∧
    dengue_cases (uf, d :: rest) = .error .typeError := by
  constructor
  · rcases hl : text_to_list line '|' with
      _ | ⟨a, _ | ⟨b, _ | ⟨c, _ | ⟨e, _ | ⟨f, _ | ⟨g, rest2⟩⟩⟩⟩⟩⟩
    · rfl
    · rfl
    · rfl
    · rfl
    · rfl
    · rfl
    · rw [hl] at hlen
      simp at hlen
  · simp [dengue_cases, mapME, hcasos]

/-- Witness for the amended C10 on the 2-field line `1|2015-03-10` and a
mapping lacking `casos`. -/
theorem dengue_short_record_errors_witness :
    dengue_record_stage (text_to_list (str "2|2015-04-12") '|') =
      .error .keyError ∧
    dengue_cases (str "SP", [[(str "ano_mes", str "2015-03")]]) =
      .error .typeError :=
  dengue_short_record_errors (str "2|2015-04-12") (str "SP")
    [(str "ano_mes", str "2015-03")] [] (by decide) (by decide)

end Pipeline
